import Mathlib

/-!
Verification of the live-vehicle-tracking core (`src/tracking.py`).

The embedding models, from the source:
- `ConnectionManager.active_connections : Dict[int, List[WebSocket]]`
  as an association list from vehicle ids to lists of connections
  (a Python dict has unique keys; key uniqueness is stated as the
  well-formedness predicate `WFReg` where a proof needs it);
- `ConnectionManager.connect` / `disconnect` / `broadcast`;
- the module-level cache `vehicle_locations`;
- the `websocket_location` handler loop, one inbound event at a time.

Websockets are identified by naturals (Python compares them by object
identity).  `json.loads` / `json.dumps` are external library calls, so the
handler is parameterized by an arbitrary codec `parse : String → Option J`,
`dumps : J → String`; send failures are modelled by a predicate
`fail : Conn → Bool` driving an `Except`-valued send.
-/

abbrev VehicleId := Int

abbrev Conn := Nat

/-- The registry: `vehicle_id -> list of websockets`
(`ConnectionManager.active_connections`). -/
abbrev Registry := List (VehicleId × List Conn)

/-- Dict lookup: value at the first matching key. -/
def lookupReg : Registry → VehicleId → Option (List Conn)
  | [], _ => none
  | (k, l) :: r, vid => if k = vid then some l else lookupReg r vid

/-- The connection list currently recorded for `vid` (empty if the key is
absent), i.e. what the Python code reads as
`self.active_connections[vehicle_id]` after a membership check. -/
def conns (r : Registry) (vid : VehicleId) : List Conn :=
  (lookupReg r vid).getD []

/-- Dict write `d[k] = l`: replace the value at the first matching key, or
append a fresh binding at the end. -/
def setEntry : Registry → VehicleId → List Conn → Registry
  | [], vid, l => [(vid, l)]
  | (k, v) :: r, vid, l =>
    if k = vid then (vid, l) :: r else (k, v) :: setEntry r vid l

/-- Dict delete `del d[k]`: drop the first binding with the given key. -/
def delEntry : Registry → VehicleId → Registry
  | [], _ => []
  | (k, v) :: r, vid => if k = vid then r else (k, v) :: delEntry r vid

/-- `ConnectionManager.connect`: create the list if the key is absent, then
append the websocket (`self.active_connections[vehicle_id].append(websocket)`).
The handshake `websocket.accept()` has no registry effect. -/
def connect (ws : Conn) (vid : VehicleId) (r : Registry) : Registry :=
  setEntry r vid (conns r vid ++ [ws])

/-- `ConnectionManager.disconnect`: if the key exists, remove the websocket
from its list when present (`list.remove` drops the first occurrence), and
delete the key when the list has become empty. -/
def disconnect (ws : Conn) (vid : VehicleId) (r : Registry) : Registry :=
  match lookupReg r vid with
  | none => r
  | some l =>
    let l' := if ws ∈ l then l.erase ws else l
    if l' = [] then delEntry r vid else setEntry r vid l'

/-- `connection.send_text(message)`: fails exactly on the connections the
failure model `fail` marks dead. -/
def send (fail : Conn → Bool) (c : Conn) (msg : String) :
    Except String Unit :=
  if fail c then Except.error "send failed" else Except.ok ()

/-- The fan-out loop body of `ConnectionManager.broadcast`: try each send,
catch a failure locally and keep going.  The returned list records the
successful deliveries (connection, message) in loop order. -/
def sendAll (fail : Conn → Bool) (msg : String) :
    List Conn → List (Conn × String)
  | [] => []
  | c :: rest =>
    match send fail c msg with
    | Except.ok _ => (c, msg) :: sendAll fail msg rest
    | Except.error _ => sendAll fail msg rest

/-- `ConnectionManager.broadcast`: no-op unless the vehicle id has an entry,
otherwise fan out to its list.  It is a plain total function: a per-send
failure is swallowed inside `sendAll` and never reaches the caller.
The registry is not touched. -/
def broadcast (fail : Conn → Bool) (r : Registry) (vid : VehicleId)
    (msg : String) : List (Conn × String) :=
  match lookupReg r vid with
  | none => []
  | some l => sendAll fail msg l

/-- Module-level state shared by all handler tasks: `manager` and the
`vehicle_locations` cache.  `J` is the type of parsed JSON values. -/
structure ServerState (J : Type) where
  active_connections : Registry
  vehicle_locations : List (VehicleId × J)
  deriving DecidableEq, Repr

/-- Dict write for the `vehicle_locations` cache. -/
def setCache {J : Type} :
    List (VehicleId × J) → VehicleId → J → List (VehicleId × J)
  | [], vid, x => [(vid, x)]
  | (k, v) :: r, vid, x =>
    if k = vid then (vid, x) :: r else (k, v) :: setCache r vid x

/-- Cache lookup. -/
def lookupCache {J : Type} : List (VehicleId × J) → VehicleId → Option J
  | [], _ => none
  | (k, v) :: r, vid => if k = vid then some v else lookupCache r vid

/-- One outcome of `await websocket.receive_text()` inside the handler loop:
a text frame, a `WebSocketDisconnect`, or any other read exception. -/
inductive InEvent where
  | msg (data : String)
  | peerClose
  | readError
  deriving DecidableEq, Repr

/-- Whether the handler loop for this connection is still running. -/
inductive ConnStatus where
  | opened
  | closed
  deriving DecidableEq, Repr

/-- One iteration of the `websocket_location` receive loop for connection
`ws` on path vehicle id `vid`, given the event the `await` produced.
Mirrors the source:
- a text frame is parsed; on success the cache is written and the parsed
  value is re-serialized once and broadcast, and the loop continues;
- a parse failure raises out of the `try`, is caught by `except Exception`,
  which calls `manager.disconnect` and ends the handler;
- `WebSocketDisconnect` and any other read exception likewise end in
  `manager.disconnect`.
Returns the new shared state, the deliveries made, and whether the loop
continues. -/
def handleEvent {J : Type} (parse : String → Option J) (dumps : J → String)
    (fail : Conn → Bool) (ws : Conn) (vid : VehicleId)
    (s : ServerState J) :
    InEvent → ServerState J × List (Conn × String) × ConnStatus
  | InEvent.msg data =>
    match parse data with
    | some location =>
      let s' : ServerState J :=
        { s with vehicle_locations := setCache s.vehicle_locations vid location }
      (s', broadcast fail s'.active_connections vid (dumps location),
        ConnStatus.opened)
    | none =>
      ({ s with active_connections := disconnect ws vid s.active_connections },
        [], ConnStatus.closed)
  | InEvent.peerClose =>
    ({ s with active_connections := disconnect ws vid s.active_connections },
      [], ConnStatus.closed)
  | InEvent.readError =>
    ({ s with active_connections := disconnect ws vid s.active_connections },
      [], ConnStatus.closed)

/-- The whole `websocket_location` loop over a sequence of inbound events:
keeps iterating while the loop is live, stops at the first terminating
event, and concatenates all deliveries. -/
def runHandler {J : Type} (parse : String → Option J) (dumps : J → String)
    (fail : Conn → Bool) (ws : Conn) (vid : VehicleId) :
    List InEvent → ServerState J →
      ServerState J × List (Conn × String) × ConnStatus
  | [], s => (s, [], ConnStatus.opened)
  | e :: es, s =>
    match handleEvent parse dumps fail ws vid s e with
    | (s', out, ConnStatus.closed) => (s', out, ConnStatus.closed)
    | (s', out, ConnStatus.opened) =>
      match runHandler parse dumps fail ws vid es s' with
      | (s'', out', st) => (s'', out ++ out', st)

/-- A register / deregister operation on the registry (claim C3 quantifies
over arbitrary sequences of these). -/
inductive RegOp where
  | reg (vid : VehicleId) (ws : Conn)
  | dereg (vid : VehicleId) (ws : Conn)
  deriving DecidableEq, Repr

/-- Apply one operation. -/
def applyOp (r : Registry) : RegOp → Registry
  | RegOp.reg vid ws => connect ws vid r
  | RegOp.dereg vid ws => disconnect ws vid r

/-- Run a sequence of operations in order from a starting registry. -/
def runOps : List RegOp → Registry → Registry
  | [], r => r
  | op :: ops, r => runOps ops (applyOp r op)

/-- Well-formedness of a registry value as a Python dict image: keys are
unique. -/
def WFReg (r : Registry) : Prop := (r.map Prod.fst).Nodup

/-- The registry invariant the spec states: every stored list is non-empty
(together with dict key uniqueness). -/
def RegInv (r : Registry) : Prop :=
  WFReg r ∧ ∀ p ∈ r, p.2 ≠ []

/-- A toy codec standing in for `json` in concrete witnesses: the only
well-formed document is the string "ok". -/
def toyParse (s : String) : Option Nat :=
  if s = "ok" then some 7 else none

/-- Toy serializer for concrete witnesses. -/
def toyDumps (n : Nat) : String :=
  if n = 7 then "seven" else "other"

/-! ### Dict lemmas -/

theorem lookupReg_setEntry_self (r : Registry) (k : VehicleId)
    (l : List Conn) : lookupReg (setEntry r k l) k = some l := by
  induction r with
  | nil => simp [setEntry, lookupReg]
  | cons p r ih =>
    obtain ⟨k', l'⟩ := p
    by_cases h : k' = k <;> simp [setEntry, lookupReg, h, ih]

theorem lookupReg_setEntry_ne (r : Registry) (k k' : VehicleId)
    (l : List Conn) (h : k' ≠ k) :
    lookupReg (setEntry r k l) k' = lookupReg r k' := by
  induction r with
  | nil => simp [setEntry, lookupReg, Ne.symm h]
  | cons p r ih =>
    obtain ⟨k0, l0⟩ := p
    by_cases h0 : k0 = k
    · subst h0
      simp [setEntry, lookupReg, Ne.symm h]
    · simp [setEntry, lookupReg, h0, ih]

theorem lookupReg_delEntry_ne (r : Registry) (k k' : VehicleId)
    (h : k' ≠ k) : lookupReg (delEntry r k) k' = lookupReg r k' := by
  induction r with
  | nil => simp [delEntry]
  | cons p r ih =>
    obtain ⟨k0, l0⟩ := p
    by_cases h0 : k0 = k
    · subst h0
      simp [delEntry, lookupReg, Ne.symm h]
    · simp [delEntry, lookupReg, h0, ih]

theorem lookupReg_eq_none_iff (r : Registry) (k : VehicleId) :
    lookupReg r k = none ↔ k ∉ r.map Prod.fst := by
  induction r with
  | nil => simp [lookupReg]
  | cons p r ih =>
    obtain ⟨k0, l0⟩ := p
    by_cases h0 : k0 = k
    · subst h0
      simp [lookupReg]
    · simp [lookupReg, h0, ih, Ne.symm h0]

theorem lookupReg_delEntry_self (r : Registry) (k : VehicleId)
    (hwf : WFReg r) : lookupReg (delEntry r k) k = none := by
  induction r with
  | nil => simp [delEntry, lookupReg]
  | cons p r ih =>
    obtain ⟨k0, l0⟩ := p
    simp only [WFReg, List.map_cons, List.nodup_cons] at hwf
    by_cases h0 : k0 = k
    · subst h0
      simpa [delEntry, lookupReg_eq_none_iff] using hwf.1
    · simp [delEntry, lookupReg, h0, ih hwf.2]

theorem mem_setEntry (r : Registry) (k : VehicleId) (l : List Conn)
    (p : VehicleId × List Conn) (hp : p ∈ setEntry r k l) :
    p ∈ r ∨ p = (k, l) := by
  induction r with
  | nil => simpa [setEntry] using hp
  | cons q r ih =>
    obtain ⟨k0, l0⟩ := q
    by_cases h0 : k0 = k
    · subst h0
      rcases (by simpa [setEntry] using hp : p = (k0, l) ∨ p ∈ r) with h | h
      · exact Or.inr h
      · exact Or.inl (List.mem_cons_of_mem _ h)
    · rcases (by simpa [setEntry, h0] using hp : p = (k0, l0) ∨ p ∈ setEntry r k l) with h | h
      · exact Or.inl (by simp [h])
      · rcases ih h with h' | h'
        · exact Or.inl (List.mem_cons_of_mem _ h')
        · exact Or.inr h'

theorem mem_delEntry (r : Registry) (k : VehicleId)
    (p : VehicleId × List Conn) (hp : p ∈ delEntry r k) : p ∈ r := by
  induction r with
  | nil => simpa [delEntry] using hp
  | cons q r ih =>
    obtain ⟨k0, l0⟩ := q
    by_cases h0 : k0 = k
    · subst h0
      exact List.mem_cons_of_mem _ (by simpa [delEntry] using hp)
    · rcases (by simpa [delEntry, h0] using hp : p = (k0, l0) ∨ p ∈ delEntry r k) with h | h
      · simp [h]
      · exact List.mem_cons_of_mem _ (ih h)

theorem keys_setEntry_of_some (r : Registry) (k : VehicleId)
    (l0 l : List Conn) (h : lookupReg r k = some l0) :
    (setEntry r k l).map Prod.fst = r.map Prod.fst := by
  induction r with
  | nil => simp [lookupReg] at h
  | cons q r ih =>
    obtain ⟨k0, l1⟩ := q
    by_cases h0 : k0 = k
    · subst h0; simp [setEntry]
    · simp only [lookupReg, h0, if_false] at h
      simp [setEntry, h0, ih h]

theorem keys_setEntry_of_none (r : Registry) (k : VehicleId)
    (l : List Conn) (h : lookupReg r k = none) :
    (setEntry r k l).map Prod.fst = r.map Prod.fst ++ [k] := by
  induction r with
  | nil => simp [setEntry]
  | cons q r ih =>
    obtain ⟨k0, l1⟩ := q
    by_cases h0 : k0 = k
    · subst h0; simp [lookupReg] at h
    · simp only [lookupReg, h0, if_false] at h
      simp [setEntry, h0, ih h]

theorem keys_delEntry (r : Registry) (k : VehicleId) :
    (delEntry r k).map Prod.fst = (r.map Prod.fst).erase k := by
  induction r with
  | nil => simp [delEntry]
  | cons q r ih =>
    obtain ⟨k0, l0⟩ := q
    by_cases h0 : k0 = k
    · subst h0; simp [delEntry, List.erase_cons_head]
    · simp [delEntry, h0, List.erase_cons_tail, ih,
        (by simpa using h0 : ¬(k0 == k) = true)]

theorem setEntry_setEntry (r : Registry) (k : VehicleId)
    (l l' : List Conn) : setEntry (setEntry r k l) k l' = setEntry r k l' := by
  induction r with
  | nil => simp [setEntry]
  | cons q r ih =>
    obtain ⟨k0, l0⟩ := q
    by_cases h0 : k0 = k <;> simp [setEntry, h0, ih]

theorem setEntry_eq_self (r : Registry) (k : VehicleId) (l : List Conn)
    (h : lookupReg r k = some l) : setEntry r k l = r := by
  induction r with
  | nil => simp [lookupReg] at h
  | cons q r ih =>
    obtain ⟨k0, l0⟩ := q
    by_cases h0 : k0 = k
    · subst h0
      simp [lookupReg] at h
      simp [setEntry, h]
    · simp only [lookupReg, h0, if_false] at h
      simp [setEntry, h0, ih h]

theorem lookupReg_mem (r : Registry) (k : VehicleId) (l : List Conn)
    (h : lookupReg r k = some l) : (k, l) ∈ r := by
  induction r with
  | nil => simp [lookupReg] at h
  | cons q r ih =>
    obtain ⟨k0, l0⟩ := q
    by_cases h0 : k0 = k
    · subst h0
      simp [lookupReg] at h
      simp [h]
    · simp only [lookupReg, h0, if_false] at h
      exact List.mem_cons_of_mem _ (ih h)

/-! ### Facts about connect, disconnect and broadcast -/

theorem conns_connect_self (r : Registry) (vid : VehicleId) (ws : Conn) :
    conns (connect ws vid r) vid = conns r vid ++ [ws] := by
  simp [connect, conns, lookupReg_setEntry_self]

theorem lookupReg_connect_ne (r : Registry) (v w : VehicleId) (ws : Conn)
    (h : w ≠ v) : lookupReg (connect ws v r) w = lookupReg r w := by
  simp [connect, lookupReg_setEntry_ne _ _ _ _ h]

theorem lookupReg_disconnect_ne (r : Registry) (v w : VehicleId) (ws : Conn)
    (h : w ≠ v) : lookupReg (disconnect ws v r) w = lookupReg r w := by
  cases hl : lookupReg r v with
  | none => simp [disconnect, hl]
  | some l =>
    by_cases he : (if ws ∈ l then l.erase ws else l) = [] <;>
      simp [disconnect, hl, he, lookupReg_delEntry_ne r v w h,
        lookupReg_setEntry_ne r v w _ h]

theorem sendAll_eq_filter (fail : Conn → Bool) (msg : String)
    (l : List Conn) :
    sendAll fail msg l
      = (l.filter (fun c => !fail c)).map (fun c => (c, msg)) := by
  induction l with
  | nil => rfl
  | cons c rest ih =>
    by_cases hc : fail c = true <;> simp [sendAll, send, hc, ih]

theorem broadcast_eq_filter (fail : Conn → Bool) (r : Registry)
    (vid : VehicleId) (msg : String) :
    broadcast fail r vid msg
      = ((conns r vid).filter (fun c => !fail c)).map (fun c => (c, msg)) := by
  cases hl : lookupReg r vid with
  | none => simp [broadcast, conns, hl]
  | some l => simp [broadcast, conns, hl, sendAll_eq_filter]

theorem mem_broadcast (fail : Conn → Bool) (r : Registry) (vid : VehicleId)
    (msg : String) (c : Conn) (m : String)
    (h : (c, m) ∈ broadcast fail r vid msg) :
    c ∈ conns r vid ∧ m = msg ∧ fail c = false := by
  rw [broadcast_eq_filter] at h
  simp only [List.mem_map, List.mem_filter, Prod.mk.injEq] at h
  obtain ⟨c', ⟨hc', hf⟩, rfl, rfl⟩ := h
  exact ⟨hc', rfl, by simpa using hf⟩

theorem disconnect_not_mem (r : Registry) (vid : VehicleId) (ws : Conn)
    (hwf : WFReg r) (hcount : (conns r vid).count ws ≤ 1) :
    ws ∉ conns (disconnect ws vid r) vid := by
  cases hl : lookupReg r vid with
  | none => simp [disconnect, hl, conns, hl]
  | some l =>
    have hc : conns r vid = l := by simp [conns, hl]
    rw [hc] at hcount
    by_cases hm : ws ∈ l
    · have hcnt : l.count ws = 1 :=
        Nat.le_antisymm hcount (List.count_pos_iff.mpr hm)
      have hnot : ws ∉ l.erase ws := by
        rw [← List.count_eq_zero (a := ws) (l := l.erase ws)]
        rw [List.count_erase_self, hcnt]
      by_cases he : l.erase ws = []
      · simp [disconnect, hl, hm, he, conns,
          lookupReg_delEntry_self r vid hwf]
      · simpa [disconnect, hl, hm, he, conns, lookupReg_setEntry_self]
          using hnot
    · by_cases he : l = []
      · subst he
        simp [disconnect, hl, hm, conns,
          lookupReg_delEntry_self r vid hwf]
      · simpa [disconnect, hl, hm, he, conns, lookupReg_setEntry_self]
          using hm

theorem disconnect_disconnect (r : Registry) (vid : VehicleId) (ws : Conn)
    (hwf : WFReg r) (hcount : (conns r vid).count ws ≤ 1) :
    disconnect ws vid (disconnect ws vid r) = disconnect ws vid r := by
  cases hl : lookupReg r vid with
  | none =>
    have hr : disconnect ws vid r = r := by simp [disconnect, hl]
    rw [hr, hr]
  | some l =>
    have hc : conns r vid = l := by simp [conns, hl]
    rw [hc] at hcount
    by_cases he : (if ws ∈ l then l.erase ws else l) = []
    · have hr : disconnect ws vid r = delEntry r vid := by
        simp [disconnect, hl, he]
      have h2 : lookupReg (delEntry r vid) vid = none :=
        lookupReg_delEntry_self r vid hwf
      rw [hr]
      simp [disconnect, h2]
    · have hr : disconnect ws vid r = setEntry r vid
          (if ws ∈ l then l.erase ws else l) := by
        simp [disconnect, hl, he]
      have hnot : ws ∉ (if ws ∈ l then l.erase ws else l) := by
        by_cases hm : ws ∈ l
        · rw [if_pos hm]
          have hcnt : l.count ws = 1 :=
            Nat.le_antisymm hcount (List.count_pos_iff.mpr hm)
          rw [← List.count_eq_zero (a := ws) (l := l.erase ws)]
          rw [List.count_erase_self, hcnt]
        · rw [if_neg hm]; exact hm
      have h2 : lookupReg (setEntry r vid
          (if ws ∈ l then l.erase ws else l)) vid
            = some (if ws ∈ l then l.erase ws else l) :=
        lookupReg_setEntry_self r vid _
      rw [hr]
      simp [disconnect, h2, hnot, he, setEntry_setEntry]

theorem disconnect_eq_self (r : Registry) (vid : VehicleId) (ws : Conn)
    (hinv : RegInv r) (hmem : ws ∉ conns r vid) : disconnect ws vid r = r := by
  cases hl : lookupReg r vid with
  | none => simp [disconnect, hl]
  | some l =>
    have hc : conns r vid = l := by simp [conns, hl]
    rw [hc] at hmem
    have hne : l ≠ [] := hinv.2 (vid, l) (lookupReg_mem r vid l hl)
    simp [disconnect, hl, hmem, hne, setEntry_eq_self r vid l hl]

/-! ### The registry invariant and its preservation -/

theorem RegInv_nil : RegInv [] := by
  constructor
  · simp [WFReg]
  · intro p hp; simp at hp

theorem RegInv_connect (r : Registry) (vid : VehicleId) (ws : Conn)
    (h : RegInv r) : RegInv (connect ws vid r) := by
  obtain ⟨hwf, hne⟩ := h
  constructor
  · cases hl : lookupReg r vid with
    | none =>
      rw [WFReg, connect, keys_setEntry_of_none r vid _ hl]
      rw [List.nodup_append]
      refine ⟨hwf, List.nodup_singleton _, ?_⟩
      intro a ha hb
      simp at hb
      rw [hb] at ha
      exact (lookupReg_eq_none_iff r vid).mp hl ha
    | some l =>
      rw [WFReg, connect, keys_setEntry_of_some r vid l _ hl]
      exact hwf
  · intro p hp
    rcases mem_setEntry _ _ _ p hp with h | h
    · exact hne p h
    · rw [h]; simp

theorem RegInv_disconnect (r : Registry) (vid : VehicleId) (ws : Conn)
    (h : RegInv r) : RegInv (disconnect ws vid r) := by
  obtain ⟨hwf, hne⟩ := h
  cases hl : lookupReg r vid with
  | none =>
    rw [disconnect, hl]
    exact ⟨hwf, hne⟩
  | some l =>
    by_cases he : (if ws ∈ l then l.erase ws else l) = []
    · have hr : disconnect ws vid r = delEntry r vid := by
        simp [disconnect, hl, he]
      rw [hr]
      constructor
      · rw [WFReg, keys_delEntry]
        exact List.Nodup.erase vid hwf
      · intro p hp
        exact hne p (mem_delEntry r vid p hp)
    · have hr : disconnect ws vid r = setEntry r vid
          (if ws ∈ l then l.erase ws else l) := by
        simp [disconnect, hl, he]
      rw [hr]
      constructor
      · rw [WFReg, keys_setEntry_of_some r vid l _ hl]
        exact hwf
      · intro p hp
        rcases mem_setEntry _ _ _ p hp with h | h
        · exact hne p h
        · rw [h]; exact he

theorem RegInv_runOps (ops : List RegOp) (r : Registry) (h : RegInv r) :
    RegInv (runOps ops r) := by
  induction ops generalizing r with
  | nil => exact h
  | cons op ops ih =>
    cases op with
    | reg vid ws => exact ih _ (RegInv_connect r vid ws h)
    | dereg vid ws => exact ih _ (RegInv_disconnect r vid ws h)

theorem lookupCache_setCache_self {J : Type} (m : List (VehicleId × J))
    (k : VehicleId) (x : J) : lookupCache (setCache m k x) k = some x := by
  induction m with
  | nil => simp [setCache, lookupCache]
  | cons p m ih =>
    obtain ⟨k0, v0⟩ := p
    by_cases h0 : k0 = k <;> simp [setCache, lookupCache, h0, ih]

/-! ### Claim theorems -/

/-- Claim C3: starting from the empty registry, after any sequence of
register/deregister operations a vehicle id key exists in the mapping if and
only if its connection list is non-empty; in particular, once the last
connection for a vehicle id has been deregistered the key itself is absent
(the existence check fails, not merely an empty-set check). -/
theorem C3_key_exists_iff_nonempty (ops : List RegOp) (vid : VehicleId) :
    (lookupReg (runOps ops []) vid).isSome = true
      ↔ conns (runOps ops []) vid ≠ [] := by
  have hinv : RegInv (runOps ops []) := RegInv_runOps ops [] RegInv_nil
  constructor
  · intro h
    obtain ⟨l, hl⟩ := Option.isSome_iff_exists.mp h
    have hne : l ≠ [] := hinv.2 (vid, l) (lookupReg_mem _ vid l hl)
    simp [conns, hl, hne]
  · intro h
    cases hl : lookupReg (runOps ops []) vid with
    | none => exact absurd (by simp [conns, hl]) h
    | some l => simp

/-- Claim C8: `ConnectionManager.connect` always succeeds and registers the
connection: the list recorded for the vehicle id becomes the previous list
(created empty when the key was absent) with the connection appended, so its
size grows by exactly one. -/
theorem C8_connect_appends (r : Registry) (vid : VehicleId) (ws : Conn) :
    conns (connect ws vid r) vid = conns r vid ++ [ws] ∧
    (conns (connect ws vid r) vid).length = (conns r vid).length + 1 := by
  refine ⟨conns_connect_self r vid ws, ?_⟩
  rw [conns_connect_self r vid ws]
  simp

/-- Claim C4: a failing send during `ConnectionManager.broadcast` is caught
locally: the failing connection receives nothing, every other registered
connection whose send succeeds still receives the payload, and the broadcast
returns normally with exactly the non-failing connections served — no error
propagates to the caller. -/
theorem C4_send_failure_isolated (fail : Conn → Bool) (r : Registry)
    (vid : VehicleId) (msg : String) (c : Conn)
    (hc : c ∈ conns r vid) (hf : fail c = true) :
    (c, msg) ∉ broadcast fail r vid msg ∧
    (∀ c', c' ∈ conns r vid → fail c' = false →
      (c', msg) ∈ broadcast fail r vid msg) ∧
    broadcast fail r vid msg
      = ((conns r vid).filter (fun c' => !fail c')).map
          (fun c' => (c', msg)) := by
  refine ⟨?_, ?_, broadcast_eq_filter fail r vid msg⟩
  · intro hmem
    have hfc := (mem_broadcast fail r vid msg c msg hmem).2.2
    simp [hf] at hfc
  · intro c' hc' hf'
    rw [broadcast_eq_filter]
    exact List.mem_map_of_mem _ (List.mem_filter.mpr ⟨hc', by simp [hf']⟩)

/-- Concrete check of C4: vehicle 1 has connections 0, 1, 2; the send to 0
fails; 1 and 2 still receive the payload and the delivery list is exactly
those two. -/
theorem C4_send_failure_isolated_witness :
    ((0 : Conn), "m") ∉ broadcast (fun c => decide (c = 0)) [(1, [0, 1, 2])] 1 "m" ∧
    (∀ c', c' ∈ conns [(1, [0, 1, 2])] 1 → (fun c => decide (c = 0)) c' = false →
      (c', "m") ∈ broadcast (fun c => decide (c = 0)) [(1, [0, 1, 2])] 1 "m") ∧
    broadcast (fun c => decide (c = 0)) [(1, [0, 1, 2])] 1 "m"
      = ((conns [(1, [0, 1, 2])] 1).filter
          (fun c' => !(fun c => decide (c = 0)) c')).map (fun c' => (c', "m")) :=
  C4_send_failure_isolated (fun c => decide (c = 0)) [(1, [0, 1, 2])] 1 "m" 0
    (by decide) (by decide)

/-- Claim C5: a text frame that parses successfully is re-broadcast: with no
send failures, the handler's deliveries are exactly one copy of the single
serialization of the parsed value to every connection currently registered
for the path's vehicle id, the loop stays live, the sender itself receives
the payload whenever it is registered there, and an empty connection list
yields an empty delivery list rather than an error. -/
theorem C5_parse_success_broadcasts {J : Type} (parse : String → Option J)
    (dumps : J → String) (ws : Conn) (vid : VehicleId) (s : ServerState J)
    (data : String) (loc : J) (hp : parse data = some loc) :
    (handleEvent parse dumps (fun _ => false) ws vid s (InEvent.msg data)).2.1
        = (conns s.active_connections vid).map (fun c => (c, dumps loc)) ∧
    (handleEvent parse dumps (fun _ => false) ws vid s (InEvent.msg data)).2.2
        = ConnStatus.opened ∧
    (ws ∈ conns s.active_connections vid →
      (ws, dumps loc) ∈
        (handleEvent parse dumps (fun _ => false) ws vid s (InEvent.msg data)).2.1) ∧
    (conns s.active_connections vid = [] →
      (handleEvent parse dumps (fun _ => false) ws vid s (InEvent.msg data)).2.1
        = []) := by
  have hb : broadcast (fun _ => false) s.active_connections vid (dumps loc)
      = (conns s.active_connections vid).map (fun c => (c, dumps loc)) := by
    rw [broadcast_eq_filter]
    simp
  refine ⟨by simp [handleEvent, hp, hb], by simp [handleEvent, hp], ?_, ?_⟩
  · intro hmem
    simp only [handleEvent, hp, hb]
    exact List.mem_map_of_mem _ hmem
  · intro hnil
    simp [handleEvent, hp, hb, hnil]

/-- Concrete check of C5: connections 0 and 1 are registered for vehicle 1,
0 sends the well-formed frame "ok"; both 0 (the sender) and 1 receive the
serialized parsed value and the loop stays live. -/
theorem C5_parse_success_broadcasts_witness :
    (handleEvent toyParse toyDumps (fun _ => false) 0 1
        ⟨[(1, [0, 1])], []⟩ (InEvent.msg "ok")).2.1
      = (conns [(1, [0, 1])] 1).map (fun c => (c, toyDumps 7)) ∧
    (handleEvent toyParse toyDumps (fun _ => false) 0 1
        ⟨[(1, [0, 1])], []⟩ (InEvent.msg "ok")).2.2 = ConnStatus.opened ∧
    (0 ∈ conns [(1, [0, 1])] 1 →
      ((0 : Conn), toyDumps 7) ∈ (handleEvent toyParse toyDumps (fun _ => false) 0 1
        ⟨[(1, [0, 1])], []⟩ (InEvent.msg "ok")).2.1) ∧
    (conns [(1, [0, 1])] 1 = [] →
      (handleEvent toyParse toyDumps (fun _ => false) 0 1
        ⟨[(1, [0, 1])], []⟩ (InEvent.msg "ok")).2.1 = []) :=
  C5_parse_success_broadcasts toyParse toyDumps 0 1 ⟨[(1, [0, 1])], []⟩
    "ok" 7 (by decide)

/-- Claim C1 fails as stated: connection 0 is registered for vehicle 1 and
sends the malformed frame "bad" followed by the well-formed frame "ok".  The
parse exception escapes the `try` of `websocket_location`, is caught by its
generic `except` branch, and the handler deregisters the connection and
exits: the loop ends CLOSED, connection 0 is no longer registered, and no
delivery ever happens — the valid follow-up frame is never received. -/
theorem C1_counterexample :
    (runHandler toyParse toyDumps (fun _ => false) 0 1
        [InEvent.msg "bad", InEvent.msg "ok"] ⟨[(1, [0])], []⟩).2.2
      = ConnStatus.closed ∧
    (0 : Conn) ∉ conns (runHandler toyParse toyDumps (fun _ => false) 0 1
        [InEvent.msg "bad", InEvent.msg "ok"] ⟨[(1, [0])], []⟩).1.active_connections 1 ∧
    (runHandler toyParse toyDumps (fun _ => false) 0 1
        [InEvent.msg "bad", InEvent.msg "ok"] ⟨[(1, [0])], []⟩).2.1 = [] := by
  decide

/-- Claim C1 amended: a text frame that fails to parse produces no broadcast
and leaves the latest-position cache untouched, but the connection does not
stay OPEN: the `json.loads` exception is caught by the handler's generic
`except Exception` branch, which deregisters the connection and terminates
the receive loop. -/
theorem C1_parse_failure_amended {J : Type} (parse : String → Option J)
    (dumps : J → String) (fail : Conn → Bool) (ws : Conn) (vid : VehicleId)
    (s : ServerState J) (data : String) (hp : parse data = none) :
    handleEvent parse dumps fail ws vid s (InEvent.msg data)
      = ({ s with active_connections := disconnect ws vid s.active_connections },
          [], ConnStatus.closed) := by
  simp [handleEvent, hp]

/-- Concrete check of the amended C1 at the malformed frame "bad". -/
theorem C1_parse_failure_amended_witness :
    handleEvent toyParse toyDumps (fun _ => false) 0 1
        ⟨[(1, [0])], []⟩ (InEvent.msg "bad")
      = (⟨disconnect 0 1 [(1, [0])], []⟩, [], ConnStatus.closed) :=
  C1_parse_failure_amended toyParse toyDumps (fun _ => false) 0 1
    ⟨[(1, [0])], []⟩ "bad" (by decide)

/-- Claim C2 fails as stated: vehicle 1 has the single connection 0, and the
send to 0 fails during the broadcast of a parsed message; afterwards 0 is
still in vehicle 1's connection list — `ConnectionManager.broadcast` never
removes a connection from the registry. -/
theorem C2_counterexample :
    (0 : Conn) ∈ conns ((handleEvent toyParse toyDumps (fun _ => true) 0 1
      ⟨[(1, [0])], []⟩ (InEvent.msg "ok")).1.active_connections) 1 := by
  decide

/-- Claim C2 amended: a broadcast — failed sends included — leaves the
registry exactly as it was, so the dead connection stays registered; it is
removed only when its deregister trigger later runs `disconnect`, which does
drop it from the vehicle id's list (for a well-formed registry in which the
connection is registered at most once). -/
theorem C2_prune_on_disconnect_amended {J : Type} (parse : String → Option J)
    (dumps : J → String) (fail : Conn → Bool) (ws : Conn) (vid : VehicleId)
    (s : ServerState J) (data : String) (loc : J)
    (hp : parse data = some loc) :
    (handleEvent parse dumps fail ws vid s (InEvent.msg data)).1.active_connections
        = s.active_connections ∧
    (∀ c, WFReg s.active_connections →
      (conns s.active_connections vid).count c ≤ 1 →
      c ∉ conns (disconnect c vid s.active_connections) vid) := by
  constructor
  · simp [handleEvent, hp]
  · intro c hwf hc
    exact disconnect_not_mem _ vid c hwf hc

/-- Concrete check of the amended C2: the all-fail broadcast leaves
`{1: [0]}` unchanged, and a subsequent disconnect of 0 removes it. -/
theorem C2_prune_on_disconnect_amended_witness :
    (handleEvent toyParse toyDumps (fun _ => true) 0 1
        ⟨[(1, [0])], []⟩ (InEvent.msg "ok")).1.active_connections = [(1, [0])] ∧
    (0 : Conn) ∉ conns (disconnect 0 1 [(1, [0])]) 1 := by
  have h := C2_prune_on_disconnect_amended toyParse toyDumps (fun _ => true)
    0 1 ⟨[(1, [0])], []⟩ "ok" 7 (by decide)
  exact ⟨h.1, h.2 0 (by unfold WFReg; decide) (by decide)⟩

/-- Claim C6 fails as stated: on the dict state `{1: [0, 0]}` — connection 0
registered twice under vehicle 1, a state the list-based registry admits —
deregistering 0 twice in a row removes both occurrences and deletes the key,
while deregistering once leaves one occurrence; the two results differ, so
deregistration is not idempotent on every registry state. -/
theorem C6_counterexample :
    disconnect 0 1 (disconnect 0 1 [(1, [0, 0])])
      ≠ disconnect 0 1 [(1, [0, 0])] := by
  decide

/-- Claim C6 amended: `disconnect` is idempotent on every well-formed
registry state in which the connection occurs at most once in the vehicle
id's list (which is every state reachable when each live websocket registers
once), and deregistering a connection that is not registered there —
including an absent vehicle id — is a no-op on every state satisfying the
registry invariant; `disconnect` is a total function, so it never raises. -/
theorem C6_dereg_idempotent_amended (r : Registry) (vid : VehicleId)
    (ws : Conn) :
    (WFReg r → (conns r vid).count ws ≤ 1 →
      disconnect ws vid (disconnect ws vid r) = disconnect ws vid r) ∧
    (RegInv r → ws ∉ conns r vid → disconnect ws vid r = r) :=
  ⟨fun hwf hc => disconnect_disconnect r vid ws hwf hc,
   fun hinv hm => disconnect_eq_self r vid ws hinv hm⟩

/-- Concrete check of the amended C6 on the state `{1: [0, 5]}`. -/
theorem C6_dereg_idempotent_amended_witness :
    disconnect 0 1 (disconnect 0 1 [(1, [0, 5])])
        = disconnect 0 1 [(1, [0, 5])] ∧
    disconnect 9 1 [(1, [0, 5])] = [(1, [0, 5])] :=
  ⟨(C6_dereg_idempotent_amended [(1, [0, 5])] 1 0).1
      (by unfold WFReg; decide) (by decide),
   (C6_dereg_idempotent_amended [(1, [0, 5])] 1 9).2
      (by unfold RegInv WFReg; decide) (by decide)⟩

/-- Claim C7: every terminating event of the receive loop — peer-initiated
close (`WebSocketDisconnect`), a read error, or the unhandled parse
exception — leaves the handler CLOSED and runs `manager.disconnect`
unconditionally; for a well-formed registry in which the connection is
registered at most once under the vehicle id, the connection is gone from
that list afterwards, so no terminated connection's registry entry leaks. -/
theorem C7_terminal_deregisters {J : Type} (parse : String → Option J)
    (dumps : J → String) (fail : Conn → Bool) (ws : Conn) (vid : VehicleId)
    (s : ServerState J) (e : InEvent)
    (hterm : e = InEvent.peerClose ∨ e = InEvent.readError ∨
      ∃ d, e = InEvent.msg d ∧ parse d = none)
    (hwf : WFReg s.active_connections)
    (hcount : (conns s.active_connections vid).count ws ≤ 1) :
    (handleEvent parse dumps fail ws vid s e).2.2 = ConnStatus.closed ∧
    (handleEvent parse dumps fail ws vid s e).1.active_connections
        = disconnect ws vid s.active_connections ∧
    ws ∉ conns (handleEvent parse dumps fail ws vid s e).1.active_connections
        vid := by
  have hkey : handleEvent parse dumps fail ws vid s e
      = ({ s with active_connections := disconnect ws vid s.active_connections },
          [], ConnStatus.closed) := by
    rcases hterm with rfl | rfl | ⟨d, rfl, hd⟩
    · rfl
    · rfl
    · simp [handleEvent, hd]
  rw [hkey]
  exact ⟨rfl, rfl, disconnect_not_mem _ vid ws hwf hcount⟩

/-- Concrete check of C7 at a peer-initiated close of connection 0 on the
state `{1: [0, 1]}`. -/
theorem C7_terminal_deregisters_witness :
    (handleEvent toyParse toyDumps (fun _ => false) 0 1
        ⟨[(1, [0, 1])], []⟩ InEvent.peerClose).2.2 = ConnStatus.closed ∧
    (handleEvent toyParse toyDumps (fun _ => false) 0 1
        ⟨[(1, [0, 1])], []⟩ InEvent.peerClose).1.active_connections
      = disconnect 0 1 [(1, [0, 1])] ∧
    (0 : Conn) ∉ conns (handleEvent toyParse toyDumps (fun _ => false) 0 1
        ⟨[(1, [0, 1])], []⟩ InEvent.peerClose).1.active_connections 1 :=
  C7_terminal_deregisters toyParse toyDumps (fun _ => false) 0 1
    ⟨[(1, [0, 1])], []⟩ InEvent.peerClose (Or.inl rfl)
    (by unfold WFReg; decide) (by decide)

/-- Claim C9: state is partitioned by vehicle id — `connect`, `disconnect`
and `broadcast` performed for vehicle `v` leave the registry entry of any
other vehicle `w` exactly as it was (`broadcast` touches no entry at all),
and a broadcast for `v` delivers nothing to a connection that is registered
under `w` and not under `v`. -/
theorem C9_partitioned_by_vehicle (r : Registry) (v w : VehicleId)
    (ws c : Conn) (fail : Conn → Bool) (msg : String)
    (hvw : w ≠ v) (hcw : c ∈ conns r w) (hcv : c ∉ conns r v) :
    lookupReg (connect ws v r) w = lookupReg r w ∧
    lookupReg (disconnect ws v r) w = lookupReg r w ∧
    ∀ m, (c, m) ∉ broadcast fail r v msg := by
  refine ⟨lookupReg_connect_ne r v w ws hvw,
    lookupReg_disconnect_ne r v w ws hvw, ?_⟩
  intro m hmem
  exact hcv (mem_broadcast fail r v msg c m hmem).1

/-- Concrete check of C9: operations for vehicle 1 do not disturb vehicle
2's entry, and broadcasting to vehicle 1 sends nothing to connection 5
registered only under vehicle 2. -/
theorem C9_partitioned_by_vehicle_witness :
    lookupReg (connect 7 1 [(1, [0]), (2, [5])]) 2
        = lookupReg [(1, [0]), (2, [5])] 2 ∧
    lookupReg (disconnect 7 1 [(1, [0]), (2, [5])]) 2
        = lookupReg [(1, [0]), (2, [5])] 2 ∧
    ∀ m, ((5 : Conn), m) ∉ broadcast (fun _ => false) [(1, [0]), (2, [5])] 1 "p" :=
  C9_partitioned_by_vehicle [(1, [0]), (2, [5])] 1 2 7 5 (fun _ => false) "p"
    (by decide) (by decide) (by decide)

/-- Claim C10: a successfully parsed message writes the parsed value into
the `vehicle_locations` cache under the path's vehicle id — the handler
state carries the write into the broadcast and it stands whatever the send
outcomes are, even if every send fails — while a message that fails to parse
leaves the whole cache untouched (so every vehicle id's entry is
unchanged). -/
theorem C10_cache_update {J : Type} (parse : String → Option J)
    (dumps : J → String) (fail : Conn → Bool) (ws : Conn) (vid : VehicleId)
    (s : ServerState J) (data : String) :
    (∀ loc, parse data = some loc →
      (handleEvent parse dumps fail ws vid s (InEvent.msg data)).1.vehicle_locations
          = setCache s.vehicle_locations vid loc ∧
      lookupCache
          ((handleEvent parse dumps fail ws vid s (InEvent.msg data)).1.vehicle_locations)
          vid = some loc) ∧
    (parse data = none →
      (handleEvent parse dumps fail ws vid s (InEvent.msg data)).1.vehicle_locations
          = s.vehicle_locations) := by
  constructor
  · intro loc hp
    constructor
    · simp [handleEvent, hp]
    · simp [handleEvent, hp, lookupCache_setCache_self]
  · intro hp
    simp [handleEvent, hp]

/-- Concrete check of C10 with every send failing: the frame "ok" still
writes the cache entry for vehicle 1, and the malformed frame "bad" leaves
the cache untouched. -/
theorem C10_cache_update_witness :
    (handleEvent toyParse toyDumps (fun _ => true) 0 1
        ⟨[(1, [0])], []⟩ (InEvent.msg "ok")).1.vehicle_locations
      = setCache [] 1 7 ∧
    lookupCache ((handleEvent toyParse toyDumps (fun _ => true) 0 1
        ⟨[(1, [0])], []⟩ (InEvent.msg "ok")).1.vehicle_locations) 1 = some 7 ∧
    (handleEvent toyParse toyDumps (fun _ => true) 0 1
        ⟨[(1, [0])], []⟩ (InEvent.msg "bad")).1.vehicle_locations = [] := by
  have h1 := (C10_cache_update toyParse toyDumps (fun _ => true) 0 1
    ⟨[(1, [0])], []⟩ "ok").1 7 (by decide)
  have h2 := (C10_cache_update toyParse toyDumps (fun _ => true) 0 1
    ⟨[(1, [0])], []⟩ "bad").2 (by decide)
  exact ⟨h1.1, h1.2, h2⟩
